import Mathlib

/-!
Verification development for the aircraft-tracking ingestion pipeline
(`bdi_api` sessions s1/s4): the Fetcher (`download_data`), the
Flattener/Loader (`prepare_data`, realised as DuckDB SQL over the raw JSON
files) and the Query Service (`list_aircraft`, `get_aircraft_position`,
`get_aircraft_statistics`).

The shallow embedding mirrors the SQL statements of
`src/bdi_api/s1/exercise.py` (the s4 module runs the identical SQL against
files staged from object storage).  Numeric JSON fields (`lat`, `lon`, `gs`,
timestamps) are modelled over `Int`; no claim in scope depends on fractional
values.
-/

namespace Bdi

/-- A JSON scalar as it can appear in the `alt_baro` field of an
observation: a number, or a string such as the ground sentinel
`"ground"`. -/
inductive JsonVal where
  | num (n : Int)
  | str (s : String)
deriving DecidableEq

/-- One aircraft observation inside a raw snapshot document.  Field names
follow the JSON keys the loader's SQL reads via `struct_extract`
(`hex`, `r`, `t`, `lat`, `lon`, `alt_baro`, `gs`); `emergency` exists in the
source data but is never read by the loader's SQL. -/
structure Observation where
  hex : Option String
  r : Option String
  t : Option String
  lat : Option Int
  lon : Option Int
  alt_baro : Option JsonVal
  gs : Option Int
  emergency : Option String
deriving DecidableEq

/-- A raw snapshot document: `now` is the capture timestamp, `aircraft` the
observation array (`none` models a document whose `aircraft` key is absent,
which DuckDB surfaces as a NULL list that `unnest` turns into zero rows). -/
structure RawDoc where
  now : Option Int
  aircraft : Option (List Observation)
deriving DecidableEq

/-- One row of the loader's `raw_data_expanded` temp table. -/
structure Row where
  doc_timestamp : Option Int
  hex : Option String
  r : Option String
  t : Option String
  lat : Option Int
  lon : Option Int
  alt_baro : Option JsonVal
  gs : Option Int
  emergency : Option String
deriving DecidableEq

/-- The row `raw_data_expanded` derives from observation `a` of document
`d`: every field is copied through, the document timestamp is attached, and
`emergency` is the literal `CAST(NULL AS VARCHAR)` of the SQL. -/
def obsRow (d : RawDoc) (a : Observation) : Row :=
  { doc_timestamp := d.now, hex := a.hex, r := a.r, t := a.t, lat := a.lat,
    lon := a.lon, alt_baro := a.alt_baro, gs := a.gs, emergency := none }

/-- The rows one document contributes after `unnest(json.aircraft)`. -/
def docRows (d : RawDoc) : List Row := (d.aircraft.getD []).map (obsRow d)

/-- The full `raw_data_expanded` table over a list of documents. -/
def expand (docs : List RawDoc) : List Row := (docs.map docRows).flatten

/-- One decimal digit, or `none` for any other character. -/
def digit? (c : Char) : Option Nat :=
  if c.isDigit then some (c.toNat - 48) else none

/-- Left-to-right decimal accumulator: `none` as soon as a non-digit
appears (an empty digit string also yields `none`). -/
def parseNatChars : List Char → Option Nat → Option Nat
  | [], acc => acc
  | c :: cs, acc =>
    match digit? c with
    | none => none
    | some d => parseNatChars cs (some (acc.getD 0 * 10 + d))

/-- Decimal integer parse of a string, with optional leading minus. -/
def parseIntString (s : String) : Option Int :=
  match s.data with
  | '-' :: cs => (parseNatChars cs none).map fun n => -(n : Int)
  | cs => (parseNatChars cs none).map fun n => (n : Int)

/-- `TRY_CAST(x AS INTEGER)`: numbers cast to their value, strings are
parsed as decimal integers and yield NULL (`none`) on failure — in
particular the ground sentinel `"ground"` becomes `none` rather than an
error. -/
def tryCastInt : JsonVal → Option Int
  | .num n => some n
  | .str s => parseIntString s

/-- One row of the persisted `aircraft` table. -/
structure AircraftRow where
  icao : String
  registration : Option String
  type : Option String
deriving DecidableEq

/-- The distinct non-null `hex` values of the expanded rows
(`WHERE hex IS NOT NULL GROUP BY hex`). -/
def hexes (rows : List Row) : List String := (rows.filterMap Row.hex).dedup

/-- The aircraft row for one icao group: `MAX(r) FILTER (WHERE r IS NOT
NULL)` and likewise for `t`, modelled as `List.max?` over the non-null
values of the group. -/
def mkAircraft (rows : List Row) (h : String) : AircraftRow :=
  { icao := h,
    registration := ((rows.filter fun row => row.hex = some h).filterMap Row.r).max?,
    type := ((rows.filter fun row => row.hex = some h).filterMap Row.t).max? }

/-- `CREATE TABLE aircraft AS SELECT ... GROUP BY hex ORDER BY hex`. -/
def aircraftTableOfRows (rows : List Row) : List AircraftRow :=
  (List.insertionSort (· ≤ ·) (hexes rows)).map (mkAircraft rows)

/-- The retention predicate of the `positions` SELECT:
`hex IS NOT NULL AND lat IS NOT NULL AND lon IS NOT NULL AND doc_timestamp
IS NOT NULL`. -/
def qualifies (row : Row) : Bool :=
  row.hex.isSome && row.lat.isSome && row.lon.isSome && row.doc_timestamp.isSome

/-- One row of the persisted `positions` table. -/
structure PositionRow where
  icao : Option String
  timestamp : Option Int
  lat : Option Int
  lon : Option Int
  altitude_baro : Option Int
  ground_speed : Option Int
  emergency : Option String
deriving DecidableEq

/-- The projection of one retained expanded row into a `positions` row,
with `TRY_CAST(alt_baro AS INTEGER)` applied. -/
def mkPos (row : Row) : PositionRow :=
  { icao := row.hex, timestamp := row.doc_timestamp, lat := row.lat,
    lon := row.lon, altitude_baro := row.alt_baro.bind tryCastInt,
    ground_speed := row.gs, emergency := row.emergency }

/-- `ORDER BY hex, doc_timestamp` as a total comparison on position rows
(the retained rows all have non-null keys, so the defaults are inert). -/
def posLe (p q : PositionRow) : Prop :=
  p.icao.getD "" < q.icao.getD "" ∨
    (p.icao.getD "" = q.icao.getD "" ∧ p.timestamp.getD 0 ≤ q.timestamp.getD 0)

instance : DecidableRel posLe := fun p q => by unfold posLe; exact inferInstance

/-- `CREATE TABLE positions AS SELECT ... WHERE ... ORDER BY hex,
doc_timestamp`. -/
def positionsTableOfRows (rows : List Row) : List PositionRow :=
  List.insertionSort posLe ((rows.filter qualifies).map mkPos)

/-- The persisted derived store (`aircraft.db`) after a successful load. -/
structure StoreDB where
  aircraft : List AircraftRow
  positions : List PositionRow
deriving DecidableEq

/-- The derived store a successful `prepare_data` run builds from the
parsed documents. -/
def prepare (docs : List RawDoc) : StoreDB :=
  { aircraft := aircraftTableOfRows (expand docs),
    positions := positionsTableOfRows (expand docs) }

/-- The six statements `prepare_data` executes against the store, in
program order. -/
inductive LoadStep where
  | createRaw
  | createAircraft
  | createPositions
  | idxAircraftIcao
  | idxPositionsIcao
  | idxPositionsTs
deriving DecidableEq

/-- The on-disk state of `aircraft.db` during a load.  `raw` is the
session-scoped temp table, dropped when the connection closes. -/
structure StoreState where
  raw : Option (List Row)
  aircraft : Option (List AircraftRow)
  positions : Option (List PositionRow)
  idxAircraftIcao : Bool
  idxPositionsIcao : Bool
  idxPositionsTs : Bool
deriving DecidableEq

/-- The freshly created database file (the old one is removed before the
connection opens). -/
def emptyStore : StoreState :=
  { raw := none, aircraft := none, positions := none,
    idxAircraftIcao := false, idxPositionsIcao := false,
    idxPositionsTs := false }

/-- The effect of one committed SQL statement.  Each `conn.execute`
autocommits, so a step's effect is durable as soon as it completes. -/
def applyStep (docs : List RawDoc) : LoadStep → StoreState → StoreState
  | .createRaw, st => { st with raw := some (expand docs) }
  | .createAircraft, st =>
      { st with aircraft := some (aircraftTableOfRows (st.raw.getD [])) }
  | .createPositions, st =>
      { st with positions := some (positionsTableOfRows (st.raw.getD [])) }
  | .idxAircraftIcao, st => { st with idxAircraftIcao := true }
  | .idxPositionsIcao, st => { st with idxPositionsIcao := true }
  | .idxPositionsTs, st => { st with idxPositionsTs := true }

/-- The statements of `prepare_data` in execution order. -/
def loadSteps : List LoadStep :=
  [.createRaw, .createAircraft, .createPositions, .idxAircraftIcao,
   .idxPositionsIcao, .idxPositionsTs]

/-- Run the statements in order against the store; `fails s = true` models
an unrecoverable store failure raised by statement `s`.  On failure the
exception propagates (`Bool` result `false`) and execution stops, but the
previously committed state stays as it is — there is no enclosing
transaction in the source. -/
def runSteps (docs : List RawDoc) (fails : LoadStep → Bool) :
    List LoadStep → StoreState → Bool × StoreState
  | [], st => (true, st)
  | s :: rest, st =>
    if fails s then (false, st)
    else runSteps docs fails rest (applyStep docs s st)

/-- Closing the connection drops the session-scoped temp table. -/
def closeConn (st : StoreState) : StoreState := { st with raw := none }

/-- One `prepare_data` run with failure injection: the result flag is
`true` when the run returned "OK" and `false` when the store failure was
re-raised; the state is what remains on disk afterwards. -/
def prepareRun (docs : List RawDoc) (fails : LoadStep → Bool) :
    Bool × StoreState :=
  let r := runSteps docs fails loadSteps emptyStore
  (r.1, closeConn r.2)

/-- The loader over the raw files of the partition.  Each element is the
parse outcome of one file.  An empty partition short-circuits to success
with no store at all; otherwise the single DuckDB `read_json` over the glob
raises as soon as any file is malformed (`ignore_errors` is not set) and
the loader re-raises, and only when every file parses does the derived
store get built. -/
def loadRun (files : List (Except Unit RawDoc)) : Except Unit (Option StoreDB) :=
  if files.isEmpty then .ok none
  else if files.any fun f => !f.isOk then .error ()
  else .ok (some (prepare (files.filterMap fun f => f.toOption)))

/-- One iteration of the Fetcher's download loop over candidate hour `h`:
break once the counter has reached the limit, otherwise attempt the
download and keep the file only when the remote answered 200
(`avail h = true`; timeouts and transport errors are caught and count as
unavailable). -/
def fetchStep (avail : Nat → Bool) (limit : Nat) (acc : List Nat) (h : Nat) :
    List Nat :=
  if limit ≤ acc.length then acc
  else if avail h then acc ++ [h] else acc

/-- The hours whose files `download_data` writes: the loop iterates the 24
candidate filenames `HH0000Z.json.gz` in ascending hour order. -/
def downloadList (avail : Nat → Bool) (limit : Nat) : List Nat :=
  (List.range 24).foldl (fetchStep avail limit) []

/-- The observable outcome of one `download_data` call: which hour files
were written, and the HTTP response body. -/
structure FetchOutcome where
  written : List Nat
  response : String
deriving DecidableEq

/-- The Fetcher endpoint: downloads up to `file_limit` available hourly
files and returns the literal string "OK". -/
def download_data (avail : Nat → Bool) (limit : Nat) : FetchOutcome :=
  { written := downloadList avail limit, response := "OK" }

/-- Ordering of aircraft rows by `icao` ascending (`ORDER BY icao ASC`). -/
def leA (a b : AircraftRow) : Prop := a.icao ≤ b.icao

instance : DecidableRel leA := fun a b => by unfold leA; exact inferInstance

instance : IsTotal AircraftRow leA := ⟨fun a b => le_total a.icao b.icao⟩

instance : IsTrans AircraftRow leA := ⟨fun _ _ _ h1 h2 => le_trans h1 h2⟩

/-- The full result set of the `list_aircraft` query before pagination
(`WHERE icao IS NOT NULL` is vacuous here since grouping keys are
non-null). -/
def aircraftSorted (d : StoreDB) : List AircraftRow :=
  List.insertionSort leA d.aircraft

/-- The `list_aircraft` endpoint.  `db = none` models a missing
`aircraft.db`; `oops = true` models any exception while opening or querying
the store, which the handler catches and turns into `[]`.
`LIMIT num OFFSET page * num`. -/
def list_aircraft (db : Option StoreDB) (oops : Bool) (num page : Nat) :
    List AircraftRow :=
  match db with
  | none => []
  | some d =>
    if oops then []
    else ((aircraftSorted d).drop (page * num)).take num

/-- One element of the `get_aircraft_position` response. -/
structure PosOut where
  timestamp : Option Int
  lat : Option Int
  lon : Option Int
deriving DecidableEq

/-- `ORDER BY timestamp ASC` on position rows. -/
def tsLe (p q : PositionRow) : Prop := p.timestamp.getD 0 ≤ q.timestamp.getD 0

instance : DecidableRel tsLe := fun p q => by unfold tsLe; exact inferInstance

/-- The `get_aircraft_position` endpoint: rows of the requested icao with
non-null coordinates, ordered by timestamp, paginated; missing store or any
internal exception yields `[]`. -/
def get_aircraft_position (db : Option StoreDB) (oops : Bool) (icao : String)
    (num page : Nat) : List PosOut :=
  match db with
  | none => []
  | some d =>
    if oops then []
    else
      let rows := d.positions.filter fun p =>
        p.icao == some icao && p.lat.isSome && p.lon.isSome
      (((List.insertionSort tsLe rows).map fun p =>
        PosOut.mk p.timestamp p.lat p.lon).drop (page * num)).take num

/-- The statistics response object. -/
structure StatsOut where
  max_altitude_baro : Option Int
  max_ground_speed : Option Int
  had_emergency : Bool
deriving DecidableEq

/-- The all-null/false default the stats endpoint returns when the store is
missing or any exception is swallowed. -/
def defaultStats : StatsOut :=
  { max_altitude_baro := none, max_ground_speed := none, had_emergency := false }

/-- The `get_aircraft_statistics` endpoint: `MAX(altitude_baro)`,
`MAX(ground_speed)` (SQL MAX ignores NULLs and is NULL on an empty or
all-NULL group) and `BOOL_OR(emergency IS NOT NULL AND emergency != '')`,
with the Python handler mapping a NULL `BOOL_OR` to `False`. -/
def get_aircraft_statistics (db : Option StoreDB) (oops : Bool)
    (icao : String) : StatsOut :=
  match db with
  | none => defaultStats
  | some d =>
    if oops then defaultStats
    else
      let rows := d.positions.filter fun p => p.icao == some icao
      { max_altitude_baro := (rows.filterMap PositionRow.altitude_baro).max?,
        max_ground_speed := (rows.filterMap PositionRow.ground_speed).max?,
        had_emergency := rows.any fun p =>
          p.emergency.isSome && p.emergency != some "" }

/-- A fully populated example observation; its `emergency` field is set in
the source data but, like the real loader, the pipeline never reads it. -/
def exObs : Observation :=
  { hex := some "abc", r := some "N123AB", t := some "B738", lat := some 40,
    lon := some (-74), alt_baro := some (.num 35000), gs := some 450,
    emergency := some "general" }

/-- Example document wrapping `exObs`. -/
def exDoc : RawDoc := { now := some 100, aircraft := some [exObs] }

/-- Example observation on the ground: `alt_baro` carries the literal
string sentinel `"ground"`. -/
def exObsGround : Observation :=
  { hex := some "bcd", r := none, t := none, lat := some 7, lon := some 8,
    alt_baro := some (.str "ground"), gs := some 0, emergency := none }

/-- Example document wrapping `exObsGround`. -/
def exDocGround : RawDoc := { now := some 200, aircraft := some [exObsGround] }

/-! ### Helper lemmas -/

/-- Membership in the expanded working set, phrased over documents and
observations. -/
theorem mem_expand_iff (docs : List RawDoc) (row : Row) :
    row ∈ expand docs ↔
      ∃ d ∈ docs, ∃ a ∈ d.aircraft.getD [], obsRow d a = row := by
  simp only [expand, List.mem_flatten, List.mem_map, docRows]
  constructor
  · rintro ⟨_, ⟨d, hd, rfl⟩, hrow⟩
    obtain ⟨a, ha, rfl⟩ := List.mem_map.mp hrow
    exact ⟨d, hd, a, ha, rfl⟩
  · rintro ⟨d, hd, a, ha, rfl⟩
    exact ⟨docRows d, ⟨d, hd, rfl⟩, List.mem_map.mpr ⟨a, ha, rfl⟩⟩

/-- A qualifying observation contributes its position row. -/
theorem mem_positions_intro (docs : List RawDoc) (d : RawDoc) (a : Observation)
    (hd : d ∈ docs) (ha : a ∈ d.aircraft.getD [])
    (hhex : a.hex.isSome = true) (hlat : a.lat.isSome = true)
    (hlon : a.lon.isSome = true) (hnow : d.now.isSome = true) :
    mkPos (obsRow d a) ∈ (prepare docs).positions := by
  have hq : qualifies (obsRow d a) = true := by
    simp [qualifies, obsRow, hhex, hlat, hlon, hnow]
  have hrow : obsRow d a ∈ (expand docs).filter qualifies :=
    List.mem_filter.mpr ⟨(mem_expand_iff docs _).mpr ⟨d, hd, a, ha, rfl⟩, hq⟩
  exact (List.mem_insertionSort posLe).mpr (List.mem_map.mpr ⟨_, hrow, rfl⟩)

/-- Every persisted position row comes from a qualifying observation. -/
theorem mem_positions_elim (docs : List RawDoc) (p : PositionRow)
    (hp : p ∈ (prepare docs).positions) :
    ∃ d ∈ docs, ∃ a ∈ d.aircraft.getD [],
      a.hex.isSome = true ∧ a.lat.isSome = true ∧ a.lon.isSome = true ∧
        d.now.isSome = true ∧ p = mkPos (obsRow d a) := by
  have hp1 : p ∈ ((expand docs).filter qualifies).map mkPos :=
    (List.mem_insertionSort posLe).mp hp
  obtain ⟨row, hrow, rfl⟩ := List.mem_map.mp hp1
  have hmem := List.mem_of_mem_filter hrow
  have hq := List.of_mem_filter hrow
  obtain ⟨d, hd, a, ha, rfl⟩ := (mem_expand_iff docs row).mp hmem
  simp only [qualifies, obsRow, Bool.and_eq_true] at hq
  exact ⟨d, hd, a, ha, hq.1.1.1, hq.1.1.2, hq.1.2, hq.2, rfl⟩

/-! ### Claim theorems -/

/-- Claim C1: after a load of any set of raw documents, the `icao` values of
the `aircraft` relation are exactly the distinct non-null `hex` values
appearing in any observation of any document — no extra rows, none missing,
and one row per distinct icao. -/
theorem aircraft_icaos_exact (docs : List RawDoc) :
    ((prepare docs).aircraft.map AircraftRow.icao).Nodup ∧
    ∀ s : String,
      s ∈ (prepare docs).aircraft.map AircraftRow.icao ↔
        ∃ d ∈ docs, ∃ a ∈ d.aircraft.getD [], a.hex = some s := by
  have hmap : (prepare docs).aircraft.map AircraftRow.icao
      = List.insertionSort (· ≤ ·) (hexes (expand docs)) := by
    show (aircraftTableOfRows (expand docs)).map AircraftRow.icao = _
    unfold aircraftTableOfRows
    rw [List.map_map]
    have hcomp : AircraftRow.icao ∘ mkAircraft (expand docs) = id := by
      funext h; rfl
    rw [hcomp, List.map_id]
  constructor
  · rw [hmap, (List.perm_insertionSort _ _).nodup_iff]
    exact List.nodup_dedup _
  · intro s
    rw [hmap, List.mem_insertionSort]
    unfold hexes
    rw [List.mem_dedup, List.mem_filterMap]
    constructor
    · rintro ⟨row, hrow, hhex⟩
      obtain ⟨d, hd, a, ha, rfl⟩ := (mem_expand_iff docs row).mp hrow
      exact ⟨d, hd, a, ha, hhex⟩
    · rintro ⟨d, hd, a, ha, hhex⟩
      exact ⟨obsRow d a, (mem_expand_iff docs _).mpr ⟨d, hd, a, ha, rfl⟩, hhex⟩

/-- Claim C2: a position row is produced for an observation exactly when
its `hex`, `lat`, `lon` and the enclosing document's timestamp are all
present; consequently no persisted position row has a null latitude or
longitude, and observations missing coordinates contribute no row at
all. -/
theorem position_retention (docs : List RawDoc) :
    (∀ d ∈ docs, ∀ a ∈ d.aircraft.getD [],
        a.hex.isSome = true → a.lat.isSome = true → a.lon.isSome = true →
          d.now.isSome = true →
            mkPos (obsRow d a) ∈ (prepare docs).positions) ∧
    (∀ p ∈ (prepare docs).positions,
        ∃ d ∈ docs, ∃ a ∈ d.aircraft.getD [],
          a.hex.isSome = true ∧ a.lat.isSome = true ∧ a.lon.isSome = true ∧
            d.now.isSome = true ∧ p = mkPos (obsRow d a)) ∧
    (∀ p ∈ (prepare docs).positions, p.lat ≠ none ∧ p.lon ≠ none) := by
  refine ⟨fun d hd a ha h1 h2 h3 h4 =>
      mem_positions_intro docs d a hd ha h1 h2 h3 h4,
    fun p hp => mem_positions_elim docs p hp, fun p hp => ?_⟩
  obtain ⟨d, _, a, _, _, hlat, hlon, _, rfl⟩ := mem_positions_elim docs p hp
  constructor
  · show (obsRow d a).lat ≠ none
    simpa [obsRow, Option.isSome_iff_ne_none] using hlat
  · show (obsRow d a).lon ≠ none
    simpa [obsRow, Option.isSome_iff_ne_none] using hlon

/-- Claim C4: an observation whose `alt_baro` carries the ground sentinel
string but whose icao, coordinates and document timestamp are present still
yields a position row, and that row's `altitude_baro` is null — the row is
neither dropped nor does the coercion fail. -/
theorem ground_altitude_null (docs : List RawDoc) (d : RawDoc)
    (a : Observation) (hd : d ∈ docs) (ha : a ∈ d.aircraft.getD [])
    (hhex : a.hex.isSome = true) (hlat : a.lat.isSome = true)
    (hlon : a.lon.isSome = true) (hnow : d.now.isSome = true)
    (hg : a.alt_baro = some (JsonVal.str "ground")) :
    mkPos (obsRow d a) ∈ (prepare docs).positions ∧
    (mkPos (obsRow d a)).altitude_baro = none ∧
    (mkPos (obsRow d a)).icao = a.hex ∧
    (mkPos (obsRow d a)).timestamp = d.now := by
  refine ⟨mem_positions_intro docs d a hd ha hhex hlat hlon hnow, ?_, rfl, rfl⟩
  show (obsRow d a).alt_baro.bind tryCastInt = none
  rw [show (obsRow d a).alt_baro = a.alt_baro from rfl, hg]
  decide

/-- Witness for C4 at a concrete grounded observation. -/
theorem ground_altitude_null_witness :
    exDocGround ∈ [exDoc, exDocGround] ∧
    exObsGround ∈ exDocGround.aircraft.getD [] ∧
    exObsGround.hex.isSome = true ∧ exObsGround.lat.isSome = true ∧
    exObsGround.lon.isSome = true ∧ exDocGround.now.isSome = true ∧
    exObsGround.alt_baro = some (JsonVal.str "ground") ∧
    (mkPos (obsRow exDocGround exObsGround)
        ∈ (prepare [exDoc, exDocGround]).positions ∧
      (mkPos (obsRow exDocGround exObsGround)).altitude_baro = none ∧
      (mkPos (obsRow exDocGround exObsGround)).icao = exObsGround.hex ∧
      (mkPos (obsRow exDocGround exObsGround)).timestamp = exDocGround.now) :=
  ⟨by decide, by decide, by decide, by decide, by decide, by decide, by decide,
    ground_altitude_null [exDoc, exDocGround] exDocGround exObsGround
      (by decide) (by decide) (by decide) (by decide) (by decide) (by decide)
      (by decide)⟩

/-- Claim C9, counterexample: the loader writes NULL into every position
row's `emergency` column instead of the observation's `emergency_flag`, so
an observation carrying the non-empty flag `"general"` still yields
`had_emergency = false`, falsifying the claim at this input. -/
theorem stats_emergency_cex :
    (∃ p ∈ (prepare [exDoc]).positions, p.icao = some "abc") ∧
    exObs.emergency = some "general" ∧
    (∀ p ∈ (prepare [exDoc]).positions, p.emergency = none) ∧
    (get_aircraft_statistics (some (prepare [exDoc])) false "abc").had_emergency
      = false := by
  decide

/-- Claim C9, amended: `had_emergency` is computed as "some retained row
has a non-null, non-empty emergency flag", but the loader hardcodes every
position row's `emergency` to NULL (it never reads the observation's
`emergency_flag`), so after any load `had_emergency` is `false` for every
icao. -/
theorem stats_emergency_always_false (docs : List RawDoc) (icao : String) :
    (∀ p ∈ (prepare docs).positions, p.emergency = none) ∧
    (get_aircraft_statistics (some (prepare docs)) false icao).had_emergency
      = false := by
  have hall : ∀ p ∈ (prepare docs).positions, p.emergency = none := by
    intro p hp
    obtain ⟨d, _, a, _, _, _, _, _, rfl⟩ := mem_positions_elim docs p hp
    rfl
  refine ⟨hall, ?_⟩
  have hrfl : (get_aircraft_statistics (some (prepare docs)) false icao).had_emergency
      = ((prepare docs).positions.filter fun p => p.icao == some icao).any
          (fun p => p.emergency.isSome && p.emergency != some "") := rfl
  rw [hrfl]
  rw [List.any_eq_false]
  intro p hp
  have hnone := hall p (List.mem_of_mem_filter hp)
  simp [hnone]

/-- The download loop writes the first `limit` available candidates, in
candidate order. -/
theorem foldl_fetchStep (avail : Nat → Bool) (limit : Nat) :
    ∀ (l : List Nat) (acc : List Nat),
      l.foldl (fetchStep avail limit) acc
        = acc ++ (l.filter avail).take (limit - acc.length)
  | [], acc => by simp
  | h :: t, acc => by
    by_cases hl : limit ≤ acc.length
    · have h0 : limit - acc.length = 0 := Nat.sub_eq_zero_of_le hl
      have hstep : fetchStep avail limit acc h = acc := by
        simp [fetchStep, hl]
      rw [List.foldl_cons, hstep, foldl_fetchStep avail limit t acc, h0]
      simp
    · have hl' : acc.length < limit := Nat.not_le.mp hl
      by_cases ha : avail h
      · have hstep : fetchStep avail limit acc h = acc ++ [h] := by
          simp [fetchStep, hl, ha]
        rw [List.foldl_cons, hstep, foldl_fetchStep avail limit t (acc ++ [h]),
          List.filter_cons_of_pos ha]
        have hk : limit - acc.length = (limit - (acc ++ [h]).length) + 1 := by
          simp only [List.length_append, List.length_cons, List.length_nil]
          omega
        rw [hk, List.take_succ_cons, List.append_assoc, List.singleton_append]
      · have hstep : fetchStep avail limit acc h = acc := by
          simp [fetchStep, hl, ha]
        rw [List.foldl_cons, hstep, foldl_fetchStep avail limit t acc,
          List.filter_cons_of_neg (by simp [ha])]

/-- Closed form of the written-file list. -/
theorem downloadList_eq (avail : Nat → Bool) (limit : Nat) :
    downloadList avail limit = ((List.range 24).filter avail).take limit := by
  unfold downloadList
  rw [foldl_fetchStep]
  simp

/-- Claim C5: for every `file_limit ≤ 24`, one Fetcher run writes exactly
`min(file_limit, number of available hourly files)` objects — the first
available candidates in ascending hour order — and never more than
`file_limit`. -/
theorem download_writes_min (avail : Nat → Bool) (limit : Nat)
    (_hlim : limit ≤ 24) :
    (download_data avail limit).written
        = ((List.range 24).filter avail).take limit ∧
    (download_data avail limit).written.length
        = min limit ((List.range 24).countP avail) ∧
    (download_data avail limit).written.length ≤ limit ∧
    List.Pairwise (fun a b => a < b) (download_data avail limit).written := by
  have he : (download_data avail limit).written
      = ((List.range 24).filter avail).take limit := downloadList_eq avail limit
  refine ⟨he, ?_, ?_, ?_⟩
  · rw [he, List.length_take, List.countP_eq_length_filter]
  · rw [he, List.length_take]
    exact min_le_left _ _
  · rw [he]
    exact (List.pairwise_lt_range 24).sublist
      ((List.take_sublist _ _).trans (List.filter_sublist _))

/-- Witness for C5 with even hours available and a limit of 3. -/
theorem download_writes_min_witness :
    3 ≤ 24 ∧
    ((download_data (fun h => h % 2 == 0) 3).written
        = ((List.range 24).filter fun h => h % 2 == 0).take 3 ∧
      (download_data (fun h => h % 2 == 0) 3).written.length
        = min 3 ((List.range 24).countP fun h => h % 2 == 0) ∧
      (download_data (fun h => h % 2 == 0) 3).written.length ≤ 3 ∧
      List.Pairwise (fun a b => a < b)
        (download_data (fun h => h % 2 == 0) 3).written) :=
  ⟨by decide, download_writes_min (fun h => h % 2 == 0) 3 (by decide)⟩

/-- Claim C6, counterexample: with every hourly file available and
`file_limit = 2` the Fetcher writes two objects but returns the literal
string "OK", not the written count — the endpoint's return value is not
`count_written`. -/
theorem download_returns_ok_not_count :
    ¬ ((download_data (fun _ => true) 2).response
        = toString (download_data (fun _ => true) 2).written.length) := by
  decide

/-- Claim C6, amended: the Fetcher tracks `count_written` internally and
never exceeds the limit, but its return value is the constant success
token "OK" rather than the count. -/
theorem download_response_ok (avail : Nat → Bool) (limit : Nat) :
    (download_data avail limit).response = "OK" ∧
    (download_data avail limit).written.length ≤ limit := by
  refine ⟨rfl, ?_⟩
  rw [show (download_data avail limit).written
      = ((List.range 24).filter avail).take limit from downloadList_eq avail limit,
    List.length_take]
  exact min_le_left _ _

/-- Claim C3, counterexample: inject a store failure at the
`CREATE TABLE positions` statement.  The load aborts, but the already
committed `aircraft` table survives in the database file while `positions`
was never created — the derived state is partial, refuting the
all-or-nothing property. -/
theorem prepare_partial_state_cex :
    ¬ (((prepareRun [] fun s => s == LoadStep.createPositions).1 = true ∧
          (prepareRun [] fun s => s == LoadStep.createPositions).2.aircraft ≠ none ∧
          (prepareRun [] fun s => s == LoadStep.createPositions).2.positions ≠ none) ∨
        ((prepareRun [] fun s => s == LoadStep.createPositions).2.aircraft = none ∧
          (prepareRun [] fun s => s == LoadStep.createPositions).2.positions = none)) := by
  decide

/-- Claim C3, amended: an unrecoverable store failure aborts the load and
the error propagates, but each `conn.execute` autocommits, so already
built state persists: a failure while creating the `positions` table
leaves the `aircraft` relation on disk and no `positions` relation — there
is no all-or-nothing commit. -/
theorem prepare_abort_keeps_aircraft (docs : List RawDoc)
    (fails : LoadStep → Bool)
    (h1 : fails .createRaw = false) (h2 : fails .createAircraft = false)
    (h3 : fails .createPositions = true) :
    (prepareRun docs fails).1 = false ∧
    (prepareRun docs fails).2.aircraft
        = some (aircraftTableOfRows (expand docs)) ∧
    (prepareRun docs fails).2.positions = none := by
  simp [prepareRun, loadSteps, runSteps, h1, h2, h3, applyStep, closeConn,
    emptyStore]

/-- Witness for C3's amended theorem with a concrete failure injection. -/
theorem prepare_abort_keeps_aircraft_witness :
    (fun s => s == LoadStep.createPositions) LoadStep.createRaw = false ∧
    (fun s => s == LoadStep.createPositions) LoadStep.createAircraft = false ∧
    (fun s => s == LoadStep.createPositions) LoadStep.createPositions = true ∧
    ((prepareRun [exDoc] fun s => s == LoadStep.createPositions).1 = false ∧
      (prepareRun [exDoc] fun s => s == LoadStep.createPositions).2.aircraft
          = some (aircraftTableOfRows (expand [exDoc])) ∧
      (prepareRun [exDoc] fun s => s == LoadStep.createPositions).2.positions
          = none) :=
  ⟨by decide, by decide, by decide,
    prepare_abort_keeps_aircraft [exDoc] _ (by decide) (by decide) (by decide)⟩

/-- Claim C7, counterexample: a partition holding one malformed file and
one well-formed file makes the single `read_json` over the glob raise, and
the loader re-raises — the run does not complete successfully, refuting
the per-file skip. -/
theorem load_malformed_aborts_cex :
    (loadRun [Except.error (),
        Except.ok ({ now := some 0, aircraft := some [] } : RawDoc)]).isOk
      = false := by
  decide

/-- Claim C7, amended: a file whose observation array is absent contributes
zero observations and the run continues, but a malformed document aborts
the entire load — the parse failure of any one file fails the whole
`read_json` batch and the loader re-raises it. -/
theorem load_malformed_aborts (files : List (Except Unit RawDoc)) (d : RawDoc)
    (hm : ∃ f ∈ files, f.isOk = false) (ha : d.aircraft = none) :
    loadRun files = Except.error () ∧ docRows d = [] := by
  constructor
  · obtain ⟨f, hf, hfo⟩ := hm
    have hne : files ≠ [] := List.ne_nil_of_mem hf
    have hany : (files.any fun f => !f.isOk) = true :=
      List.any_eq_true.mpr ⟨f, hf, by rw [hfo]; rfl⟩
    simp [loadRun, List.isEmpty_iff, hne, hany]
  · simp [docRows, ha]

/-- Witness for C7's amended theorem. -/
theorem load_malformed_aborts_witness :
    (∃ f ∈ [Except.error (),
        Except.ok ({ now := some 0, aircraft := some [] } : RawDoc)],
      f.isOk = false) ∧
    ({ now := some 5, aircraft := none } : RawDoc).aircraft = none ∧
    (loadRun [Except.error (),
        Except.ok ({ now := some 0, aircraft := some [] } : RawDoc)]
        = Except.error () ∧
      docRows { now := some 5, aircraft := none } = []) :=
  ⟨by decide, rfl,
    load_malformed_aborts _ _ (by decide) rfl⟩

/-- Claim C10: each Query Service read returns its empty/default result
both when the store file is missing (`db = none`) and when any internal
exception occurs while opening or querying it (`oops = true`); nothing
propagates to the caller. -/
theorem query_defaults (db : Option StoreDB) (oops : Bool) (icao : String)
    (num page : Nat) (h : db = none ∨ oops = true) :
    list_aircraft db oops num page = [] ∧
    get_aircraft_position db oops icao num page = [] ∧
    get_aircraft_statistics db oops icao = defaultStats := by
  rcases h with h | h
  · subst h
    exact ⟨rfl, rfl, rfl⟩
  · subst h
    cases db with
    | none => exact ⟨rfl, rfl, rfl⟩
    | some d => exact ⟨rfl, rfl, rfl⟩

/-- Witness for C10 on a missing store. -/
theorem query_defaults_witness :
    ((none : Option StoreDB) = none ∨ false = true) ∧
    (list_aircraft none false 5 0 = [] ∧
      get_aircraft_position none false "abc" 5 0 = [] ∧
      get_aircraft_statistics none false "abc" = defaultStats) :=
  ⟨Or.inl rfl, query_defaults none false "abc" 5 0 (Or.inl rfl)⟩

/-- Concatenating the first `k` pages of size `N` of a list yields its
first `k * N` elements. -/
theorem pages_take {α : Type} (N : Nat) (l : List α) :
    ∀ k : Nat,
      ((List.range k).flatMap fun p => (l.drop (p * N)).take N)
        = l.take (k * N)
  | 0 => by simp
  | k + 1 => by
    rw [List.range_succ, List.flatMap_append, pages_take N l k]
    have hone : ([k].flatMap fun p => (l.drop (p * N)).take N)
        = (l.drop (k * N)).take N := by
      simp
    rw [hone, show (k + 1) * N = k * N + N from Nat.succ_mul k N,
      List.take_add]

/-- Claim C8: every `list_aircraft` page is the slice of the globally
icao-sorted aircraft sequence at offset `page × page_size`; the full
sequence is sorted by icao ascending, and concatenating enough pages of
size `N ≥ 1` reproduces the full unpaginated sequence exactly. -/
theorem list_aircraft_pagination (docs : List RawDoc) (N k : Nat)
    (_hN : 1 ≤ N) (hk : (prepare docs).aircraft.length ≤ N * k) :
    ((List.range k).flatMap fun p =>
        list_aircraft (some (prepare docs)) false N p)
      = aircraftSorted (prepare docs) ∧
    List.Sorted leA (aircraftSorted (prepare docs)) ∧
    ∀ p, list_aircraft (some (prepare docs)) false N p
        = ((aircraftSorted (prepare docs)).drop (p * N)).take N := by
  refine ⟨?_, List.sorted_insertionSort leA _, fun p => rfl⟩
  have h1 : ((List.range k).flatMap fun p =>
      list_aircraft (some (prepare docs)) false N p)
      = (aircraftSorted (prepare docs)).take (k * N) :=
    pages_take N (aircraftSorted (prepare docs)) k
  rw [h1]
  apply List.take_of_length_le
  calc (aircraftSorted (prepare docs)).length
      = (prepare docs).aircraft.length :=
        (List.perm_insertionSort leA _).length_eq
    _ ≤ N * k := hk
    _ = k * N := Nat.mul_comm N k

/-- Witness for C8 on a two-aircraft store with page size 1 and two
pages. -/
theorem list_aircraft_pagination_witness :
    1 ≤ 1 ∧ (prepare [exDoc, exDocGround]).aircraft.length ≤ 1 * 2 ∧
    (((List.range 2).flatMap fun p =>
        list_aircraft (some (prepare [exDoc, exDocGround])) false 1 p)
      = aircraftSorted (prepare [exDoc, exDocGround]) ∧
    List.Sorted leA (aircraftSorted (prepare [exDoc, exDocGround])) ∧
    ∀ p, list_aircraft (some (prepare [exDoc, exDocGround])) false 1 p
        = ((aircraftSorted (prepare [exDoc, exDocGround])).drop (p * 1)).take 1) :=
  ⟨by decide,
    by
      show (aircraftTableOfRows (expand [exDoc, exDocGround])).length ≤ 1 * 2
      unfold aircraftTableOfRows
      rw [List.length_map, List.length_insertionSort]
      decide,
    list_aircraft_pagination [exDoc, exDocGround] 1 2 (by decide)
      (by
        show (aircraftTableOfRows (expand [exDoc, exDocGround])).length ≤ 1 * 2
        unfold aircraftTableOfRows
        rw [List.length_map, List.length_insertionSort]
        decide)⟩

end Bdi
